import Mathlib

/-!
Verification of the numerical detection/fitting engine of the
whole_cell_patch repository (a whole-cell patch-clamp analysis tool),
against its natural-language specification.

The Python source is embedded shallowly:
* numpy float arrays become `List ℚ` (every IEEE double value is a rational,
  and all operations the verified claims depend on are exact comparisons,
  additions, subtractions, multiplications and divisions);
* Python `int()` truncation and slice semantics are modelled explicitly
  (`pyInt`, `pySlice`);
* the external numerical routines (`scipy.optimize.curve_fit`,
  `scipy.signal.filtfilt`) are abstracted as oracle function parameters:
  the theorems below hold for every behaviour of those oracles;
* Python exceptions become an `Except PyErr` result or an explicit
  outcome datatype.
-/

/-- Python exception kinds relevant to this code base. -/
inductive PyErr where
  | runtimeError
  | typeError
  | valueError
  | indexError
  deriving DecidableEq, Repr

/-- Python `int()` applied to a float: truncation toward zero. -/
def pyInt (q : ℚ) : ℤ :=
  if 0 ≤ q then ⌊q⌋ else -⌊-q⌋

/-- Normalize a Python slice bound against a list length
(negative indices count from the end, results are clamped to `[0, n]`). -/
def pySliceBound (n : ℕ) (a : ℤ) : ℕ :=
  if a < 0 then (n + a).toNat else min a.toNat n

/-- Python slice `x[a:b]` on a list (numpy 1-d slicing has the same
index semantics). -/
def pySlice (x : List ℚ) (a b : ℤ) : List ℚ :=
  let lo := pySliceBound x.length a
  let hi := pySliceBound x.length b
  ((x.drop lo).take (hi - lo))

/-- `np.min` over a list; `0` stands for the `ValueError` numpy raises on an
empty array (no verified claim depends on the empty case). -/
def listMin (x : List ℚ) : ℚ :=
  match x with
  | [] => 0
  | a :: rest => rest.foldl min a

/-- `np.max` over a list; `0` stands for numpy's empty-array error case. -/
def listMax (x : List ℚ) : ℚ :=
  match x with
  | [] => 0
  | a :: rest => rest.foldl max a

/-- `np.mean` over a list; `0` stands for numpy's empty-array `nan` case
(no verified claim depends on the empty case). -/
def listMean (x : List ℚ) : ℚ :=
  (x.foldl (· + ·) 0) / x.length

/-- `np.argmax`: index of the first occurrence of the maximum
(`0` stands for the error numpy raises on an empty array). -/
def listArgmax (x : List ℚ) : ℕ :=
  (List.range x.length).foldl
    (fun best k => if x.getD best 0 < x.getD k 0 then k else best) 0

/-!
## SignalProc.thmedfilt  (process.py lines 15-37)

`scipy.signal.medfilt(x, wsize)` computes, for each position `i`, the median
of the window of `wsize` samples centred at `i`, the signal being padded with
zeros on both sides; for odd `wsize` the median is the middle order statistic
of the window.
-/

/-- The zero-padded sample `x[i]` for `i : ℤ` (`0` outside the array),
as used by `scipy.signal.medfilt`'s implicit zero padding. -/
def paddedGet (x : List ℚ) (i : ℤ) : ℚ :=
  if 0 ≤ i ∧ i < (x.length : ℤ) then x.getD i.toNat 0 else 0

/-- `scipy.signal.medfilt(x, wsize)`: sliding median with zero padding.
For position `i` the window is `x[i-k .. i+k]` with `k = (wsize-1)/2`;
the median of the (odd-sized) window is the middle element of the sorted
window. -/
def medfilt (x : List ℚ) (wsize : ℕ) : List ℚ :=
  let k : ℕ := (wsize - 1) / 2
  (List.range x.length).map (fun (i : ℕ) =>
    let window := (List.range wsize).map
      (fun (j : ℕ) => paddedGet x ((i : ℤ) + (j : ℤ) - (k : ℤ)))
    (window.mergeSort (fun a b => decide (a ≤ b))).getD ((wsize - 1) / 2) 0)

/-- `SignalProc.thmedfilt` (process.py lines 15-37):
`y = signal.medfilt(x, wsize); z = np.where(thresh < abs(y - x), y, x)`. -/
def thmedfilt (x : List ℚ) (wsize : ℕ) (thresh : ℚ) : List ℚ :=
  let y := medfilt x wsize
  (List.range x.length).map (fun i =>
    let yi := y.getD i 0
    let xi := x.getD i 0
    if thresh < |yi - xi| then yi else xi)

theorem medfilt_length (x : List ℚ) (w : ℕ) : (medfilt x w).length = x.length := by
  simp only [medfilt, List.length_map, List.length_range]

/-- C6: `thmedfilt` returns an output of the same length as the input in
which position `i` holds the median-filtered value exactly when
`|medfilt(x)[i] - x[i]| > thresh`, and otherwise holds the value `x[i]`
unchanged.  (The window size being odd, as the claim assumes, is recorded
as a hypothesis; the property holds for the embedded code regardless.) -/
theorem thmedfilt_spec (x : List ℚ) (wsize : ℕ) (thresh : ℚ)
    (hodd : Odd wsize) :
    (thmedfilt x wsize thresh).length = x.length ∧
    ∀ i, i < x.length →
      ((|(medfilt x wsize).getD i 0 - x.getD i 0| > thresh →
        (thmedfilt x wsize thresh).getD i 0 = (medfilt x wsize).getD i 0) ∧
      (¬ |(medfilt x wsize).getD i 0 - x.getD i 0| > thresh →
        (thmedfilt x wsize thresh).getD i 0 = x.getD i 0)) := by
  constructor
  · simp only [thmedfilt, List.length_map, List.length_range]
  · intro i hi
    have hget : (thmedfilt x wsize thresh).getD i 0 =
        (if thresh < |(medfilt x wsize).getD i 0 - x.getD i 0| then
          (medfilt x wsize).getD i 0 else x.getD i 0) := by
      have : (thmedfilt x wsize thresh) =
          (List.range x.length).map (fun i =>
            let yi := (medfilt x wsize).getD i 0
            let xi := x.getD i 0
            if thresh < |yi - xi| then yi else xi) := rfl
      rw [this, List.getD_eq_getElem?_getD, List.getElem?_map,
        List.getElem?_range hi]
      simp
    constructor
    · intro h
      rw [hget, if_pos h]
    · intro h
      rw [hget, if_neg h]

/-- Witness for C6 at a concrete input: `x = [0, 100, 0]`, window 3,
threshold 10.  The median-filtered middle sample is 0, deviation 100 > 10. -/
theorem thmedfilt_spec_witness :
    Odd 3 ∧
    ((thmedfilt [(0 : ℚ), 100, 0] 3 10).length = [(0 : ℚ), 100, 0].length ∧
    ∀ i, i < [(0 : ℚ), 100, 0].length →
      ((|(medfilt [(0 : ℚ), 100, 0] 3).getD i 0 - [(0 : ℚ), 100, 0].getD i 0| > 10 →
        (thmedfilt [(0 : ℚ), 100, 0] 3 10).getD i 0 =
          (medfilt [(0 : ℚ), 100, 0] 3).getD i 0) ∧
      (¬ |(medfilt [(0 : ℚ), 100, 0] 3).getD i 0 - [(0 : ℚ), 100, 0].getD i 0| > 10 →
        (thmedfilt [(0 : ℚ), 100, 0] 3 10).getD i 0 = [(0 : ℚ), 100, 0].getD i 0))) :=
  ⟨by decide, thmedfilt_spec [(0 : ℚ), 100, 0] 3 10 (by decide)⟩

/-!
## AP.spikeAnalysis — spike onset detection  (ap.py lines 123-152)

The detection walks two candidate index lists with two cursors:
`pstart = np.nonzero(np.diff(trace) * sr > slope_th)[0]` (candidate rise
points) and `reverse = np.nonzero(np.diff(trace) * sr < 0)[0]` (candidate
peak points).  The while loop is embedded as a step function `apStep`
(one iteration of the loop body) driven by `apLoop`.
-/

/-- One sample of `np.diff(trace) * sr`. -/
def traceDiff (trace : List ℚ) (sr : ℚ) (k : ℕ) : ℚ :=
  (trace.getD (k + 1) 0 - trace.getD k 0) * sr

/-- `pstart = np.nonzero(trace_diff > slope_th)[0]` (ap.py line 133). -/
def risePoints (trace : List ℚ) (sr slope_th : ℚ) : List ℕ :=
  (List.range (trace.length - 1)).filter (fun k => slope_th < traceDiff trace sr k)

/-- `reverse = np.nonzero(trace_diff < 0)[0]` (ap.py line 134). -/
def peakPoints (trace : List ℚ) (sr : ℚ) : List ℕ :=
  (List.range (trace.length - 1)).filter (fun k => traceDiff trace sr k < 0)

/-- State of the spike onset scan: cursor `i` into the rise candidates,
cursor `j` into the peak candidates, and the accepted onsets. -/
structure ScanSt where
  i : ℕ
  j : ℕ
  starts : List ℕ
  deriving Repr, DecidableEq

/-- The inner skip loop (ap.py lines 146-147):
`while i < len(pstart) and pstart[i] < reverse[j]: i += 1`. -/
def skipRises (pstart : List ℕ) (bound : ℕ) (i : ℕ) : ℕ :=
  if h : i < pstart.length ∧ pstart.getD i 0 < bound then
    skipRises pstart bound (i + 1)
  else i
termination_by pstart.length - i
decreasing_by omega

theorem skipRises_ge (pstart : List ℕ) (bound : ℕ) (i : ℕ) :
    i ≤ skipRises pstart bound i := by
  rw [skipRises]
  split
  · exact le_trans (Nat.le_succ i) (skipRises_ge pstart bound (i + 1))
  · exact le_rfl
termination_by pstart.length - i
decreasing_by omega

theorem skipRises_gt (pstart : List ℕ) (bound : ℕ) (i : ℕ)
    (h1 : i < pstart.length) (h2 : pstart.getD i 0 < bound) :
    i + 1 ≤ skipRises pstart bound i := by
  rw [skipRises, dif_pos ⟨h1, h2⟩]
  exact skipRises_ge pstart bound (i + 1)

theorem skipRises_skipped (pstart : List ℕ) (bound : ℕ) (i : ℕ) :
    ∀ k, i ≤ k → k < skipRises pstart bound i → pstart.getD k 0 < bound := by
  intro k hik hk
  rw [skipRises] at hk
  split at hk
  · rcases Nat.eq_or_lt_of_le hik with heq | hlt
    · subst heq
      rename_i h
      exact h.2
    · exact skipRises_skipped pstart bound (i + 1) k hlt hk
  · omega
termination_by pstart.length - i
decreasing_by omega

theorem skipRises_stop (pstart : List ℕ) (bound : ℕ) (i : ℕ)
    (h : skipRises pstart bound i < pstart.length) :
    bound ≤ pstart.getD (skipRises pstart bound i) 0 := by
  by_cases hc : i < pstart.length ∧ pstart.getD i 0 < bound
  · rw [skipRises, dif_pos hc] at h ⊢
    exact skipRises_stop pstart bound (i + 1) h
  · rw [skipRises, dif_neg hc] at h ⊢
    rw [not_and_or] at hc
    rcases hc with hlen | hval
    · omega
    · omega
termination_by pstart.length - i
decreasing_by omega

/-- One iteration of the scan loop (ap.py lines 138-151); `none` means the
loop condition failed and the loop exits. -/
def apStep (trace : List ℚ) (pstart rev : List ℕ)
    (sr stim0 stim1 peak_th width_th : ℚ) (s : ScanSt) : Option ScanSt :=
  if s.i < pstart.length ∧ s.j < rev.length ∧
      ((pstart.getD s.i 0 : ℚ) < sr * (stim0 + stim1)) then
    if ((pstart.getD s.i 0 : ℚ)) < sr * stim0 then
      some ⟨s.i + 1, s.j, s.starts⟩
    else if pstart.getD s.i 0 < rev.getD s.j 0 then
      if peak_th < trace.getD (rev.getD s.j 0) 0 - trace.getD (pstart.getD s.i 0) 0 ∧
          ((rev.getD s.j 0 : ℚ) - (pstart.getD s.i 0 : ℚ) < width_th * sr) then
        some ⟨skipRises pstart (rev.getD s.j 0) s.i, s.j,
          s.starts ++ [pstart.getD s.i 0]⟩
      else
        some ⟨s.i + 1, s.j, s.starts⟩
    else
      some ⟨s.i, s.j + 1, s.starts⟩
  else none

theorem apStep_measure (trace : List ℚ) (pstart rev : List ℕ)
    (sr stim0 stim1 peak_th width_th : ℚ) (s t : ScanSt)
    (h : apStep trace pstart rev sr stim0 stim1 peak_th width_th s = some t) :
    (pstart.length - t.i) + (rev.length - t.j) <
      (pstart.length - s.i) + (rev.length - s.j) := by
  unfold apStep at h
  split at h
  · rename_i hcond
    obtain ⟨hi, hj, -⟩ := hcond
    split at h
    · cases h
      simp only
      omega
    · split at h
      · split at h
        · cases h
          have := skipRises_gt pstart (rev.getD s.j 0) s.i hi (by assumption)
          simp only
          omega
        · cases h
          simp only
          omega
      · cases h
        simp only
        omega
  · cases h

/-- The scan loop (ap.py lines 138-151) run to completion. -/
def apLoop (trace : List ℚ) (pstart rev : List ℕ)
    (sr stim0 stim1 peak_th width_th : ℚ) (s : ScanSt) : List ℕ :=
  if h : (apStep trace pstart rev sr stim0 stim1 peak_th width_th s).isSome then
    apLoop trace pstart rev sr stim0 stim1 peak_th width_th
      ((apStep trace pstart rev sr stim0 stim1 peak_th width_th s).get h)
  else s.starts
termination_by (pstart.length - s.i) + (rev.length - s.j)
decreasing_by
  exact apStep_measure trace pstart rev sr stim0 stim1 peak_th width_th s _
    (Option.some_get h).symm

/-- The list `starts` of spike onset indices produced by
`AP.spikeAnalysis` (ap.py lines 123-152), for a trace, sampling rate,
stimulation descriptor `(stim0, stim1)` = (start, duration) and the three
detection parameters. -/
def spikeStarts (trace : List ℚ) (sr stim0 stim1 slope_th peak_th width_th : ℚ) :
    List ℕ :=
  apLoop trace (risePoints trace sr slope_th) (peakPoints trace sr)
    sr stim0 stim1 peak_th width_th ⟨0, 0, []⟩

theorem pairwise_getD_lt (l : List ℕ) (hsort : l.Pairwise (· < ·)) (k1 k2 : ℕ)
    (h12 : k1 < k2) (h2 : k2 < l.length) : l.getD k1 0 < l.getD k2 0 := by
  have h1 : k1 < l.length := lt_trans h12 h2
  simp only [List.getD_eq_getElem?_getD, List.getElem?_eq_getElem h1,
    List.getElem?_eq_getElem h2, Option.getD_some]
  exact List.pairwise_iff_getElem.mp hsort k1 k2 h1 h2 h12

theorem risePoints_pairwise (trace : List ℚ) (sr slope_th : ℚ) :
    (risePoints trace sr slope_th).Pairwise (· < ·) :=
  (List.pairwise_lt_range _).filter _

/-- C1: when the scan loop examines a candidate rise index `r = pstart[i]`
inside the stimulation window whose next candidate peak index `p = reverse[j]`
satisfies `p > r`, the step appends `r` to the onset list if and only if
`trace[p] - trace[r] > peak_th` and `p - r < width_th * sr`; on acceptance the
rise cursor jumps exactly over all remaining rise candidates smaller than `p`
(so at most one onset is recorded per rise/peak burst), and on rejection only
the rise cursor advances by one with the onset list unchanged. -/
theorem apStep_accept_iff
    (trace : List ℚ) (sr slope_th stim0 stim1 peak_th width_th : ℚ) (s : ScanSt)
    (hi : s.i < (risePoints trace sr slope_th).length)
    (hj : s.j < (peakPoints trace sr).length)
    (hwin : ((risePoints trace sr slope_th).getD s.i 0 : ℚ) < sr * (stim0 + stim1))
    (hpre : ¬ (((risePoints trace sr slope_th).getD s.i 0 : ℚ) < sr * stim0))
    (hrp : (risePoints trace sr slope_th).getD s.i 0 <
      (peakPoints trace sr).getD s.j 0) :
    ∃ t, apStep trace (risePoints trace sr slope_th) (peakPoints trace sr)
        sr stim0 stim1 peak_th width_th s = some t ∧
      ((t.starts = s.starts ++ [(risePoints trace sr slope_th).getD s.i 0]) ↔
        (peak_th < trace.getD ((peakPoints trace sr).getD s.j 0) 0 -
            trace.getD ((risePoints trace sr slope_th).getD s.i 0) 0 ∧
          (((peakPoints trace sr).getD s.j 0 : ℚ) -
            ((risePoints trace sr slope_th).getD s.i 0 : ℚ) < width_th * sr))) ∧
      ((peak_th < trace.getD ((peakPoints trace sr).getD s.j 0) 0 -
            trace.getD ((risePoints trace sr slope_th).getD s.i 0) 0 ∧
          (((peakPoints trace sr).getD s.j 0 : ℚ) -
            ((risePoints trace sr slope_th).getD s.i 0 : ℚ) < width_th * sr)) →
        t.j = s.j ∧ s.i < t.i ∧
        (∀ k, s.i ≤ k → k < t.i →
          (risePoints trace sr slope_th).getD k 0 <
            (peakPoints trace sr).getD s.j 0) ∧
        (t.i < (risePoints trace sr slope_th).length →
          (peakPoints trace sr).getD s.j 0 ≤
            (risePoints trace sr slope_th).getD t.i 0)) ∧
      (¬ (peak_th < trace.getD ((peakPoints trace sr).getD s.j 0) 0 -
            trace.getD ((risePoints trace sr slope_th).getD s.i 0) 0 ∧
          (((peakPoints trace sr).getD s.j 0 : ℚ) -
            ((risePoints trace sr slope_th).getD s.i 0 : ℚ) < width_th * sr)) →
        t = ⟨s.i + 1, s.j, s.starts⟩) := by
  by_cases hacc : peak_th < trace.getD ((peakPoints trace sr).getD s.j 0) 0 -
      trace.getD ((risePoints trace sr slope_th).getD s.i 0) 0 ∧
    (((peakPoints trace sr).getD s.j 0 : ℚ) -
      ((risePoints trace sr slope_th).getD s.i 0 : ℚ) < width_th * sr)
  · refine ⟨⟨skipRises (risePoints trace sr slope_th)
        ((peakPoints trace sr).getD s.j 0) s.i, s.j,
        s.starts ++ [(risePoints trace sr slope_th).getD s.i 0]⟩, ?_, ?_, ?_, ?_⟩
    · unfold apStep
      rw [if_pos ⟨hi, hj, hwin⟩, if_neg hpre, if_pos hrp, if_pos hacc]
    · simp only [true_iff, iff_true]
      exact hacc
    · intro _
      refine ⟨rfl, ?_, ?_, ?_⟩
      · exact lt_of_lt_of_le (Nat.lt_succ_self s.i)
          (skipRises_gt _ _ _ hi hrp)
      · exact fun k hk1 hk2 => skipRises_skipped _ _ _ k hk1 hk2
      · exact fun hlt => skipRises_stop _ _ _ hlt
    · intro h
      exact absurd hacc h
  · refine ⟨⟨s.i + 1, s.j, s.starts⟩, ?_, ?_, ?_, ?_⟩
    · unfold apStep
      rw [if_pos ⟨hi, hj, hwin⟩, if_neg hpre, if_pos hrp, if_neg hacc]
    · constructor
      · intro heq
        exfalso
        have := congrArg List.length heq
        simp at this
      · intro h
        exact absurd h hacc
    · intro h
      exact absurd h hacc
    · intro _
      rfl

/-- Witness for C1 at a concrete input: `trace = [0, 5, 4]`, `sr = 1`,
`slope_th = 1`, stimulation `[0, 10]`, `peak_th = 1`, `width_th = 2`;
the rise candidate is index 0, the peak candidate index 1, and the step
accepts index 0 as a spike onset. -/
theorem apStep_accept_iff_witness :
    ((0 : ℕ) < (risePoints [(0 : ℚ), 5, 4] 1 1).length ∧
     (0 : ℕ) < (peakPoints [(0 : ℚ), 5, 4] 1).length ∧
     ((risePoints [(0 : ℚ), 5, 4] 1 1).getD 0 0 : ℚ) < 1 * (0 + 10) ∧
     ¬ (((risePoints [(0 : ℚ), 5, 4] 1 1).getD 0 0 : ℚ) < 1 * 0) ∧
     (risePoints [(0 : ℚ), 5, 4] 1 1).getD 0 0 <
       (peakPoints [(0 : ℚ), 5, 4] 1).getD 0 0) ∧
    (∃ t, apStep [(0 : ℚ), 5, 4] (risePoints [(0 : ℚ), 5, 4] 1 1)
        (peakPoints [(0 : ℚ), 5, 4] 1) 1 0 10 1 2 ⟨0, 0, []⟩ = some t ∧
      ((t.starts = [] ++ [(risePoints [(0 : ℚ), 5, 4] 1 1).getD 0 0]) ↔
        ((1 : ℚ) < [(0 : ℚ), 5, 4].getD ((peakPoints [(0 : ℚ), 5, 4] 1).getD 0 0) 0 -
            [(0 : ℚ), 5, 4].getD ((risePoints [(0 : ℚ), 5, 4] 1 1).getD 0 0) 0 ∧
          (((peakPoints [(0 : ℚ), 5, 4] 1).getD 0 0 : ℚ) -
            ((risePoints [(0 : ℚ), 5, 4] 1 1).getD 0 0 : ℚ) < 2 * 1))) ∧
      (((1 : ℚ) < [(0 : ℚ), 5, 4].getD ((peakPoints [(0 : ℚ), 5, 4] 1).getD 0 0) 0 -
            [(0 : ℚ), 5, 4].getD ((risePoints [(0 : ℚ), 5, 4] 1 1).getD 0 0) 0 ∧
          (((peakPoints [(0 : ℚ), 5, 4] 1).getD 0 0 : ℚ) -
            ((risePoints [(0 : ℚ), 5, 4] 1 1).getD 0 0 : ℚ) < 2 * 1)) →
        t.j = 0 ∧ 0 < t.i ∧
        (∀ k, 0 ≤ k → k < t.i →
          (risePoints [(0 : ℚ), 5, 4] 1 1).getD k 0 <
            (peakPoints [(0 : ℚ), 5, 4] 1).getD 0 0) ∧
        (t.i < (risePoints [(0 : ℚ), 5, 4] 1 1).length →
          (peakPoints [(0 : ℚ), 5, 4] 1).getD 0 0 ≤
            (risePoints [(0 : ℚ), 5, 4] 1 1).getD t.i 0)) ∧
      (¬ ((1 : ℚ) < [(0 : ℚ), 5, 4].getD ((peakPoints [(0 : ℚ), 5, 4] 1).getD 0 0) 0 -
            [(0 : ℚ), 5, 4].getD ((risePoints [(0 : ℚ), 5, 4] 1 1).getD 0 0) 0 ∧
          (((peakPoints [(0 : ℚ), 5, 4] 1).getD 0 0 : ℚ) -
            ((risePoints [(0 : ℚ), 5, 4] 1 1).getD 0 0 : ℚ) < 2 * 1)) →
        t = ⟨0 + 1, 0, []⟩)) :=
  ⟨⟨by norm_num [risePoints, traceDiff, show List.range 2 = [0, 1] from rfl], by norm_num [peakPoints, traceDiff, show List.range 2 = [0, 1] from rfl],
    by norm_num [risePoints, traceDiff, show List.range 2 = [0, 1] from rfl], by norm_num [risePoints, traceDiff, show List.range 2 = [0, 1] from rfl],
    by norm_num [risePoints, peakPoints, traceDiff, show List.range 2 = [0, 1] from rfl]⟩,
    apStep_accept_iff [(0 : ℚ), 5, 4] 1 1 0 10 1 2 ⟨0, 0, []⟩
      (by norm_num [risePoints, traceDiff, show List.range 2 = [0, 1] from rfl]) (by norm_num [peakPoints, traceDiff, show List.range 2 = [0, 1] from rfl])
      (by norm_num [risePoints, traceDiff, show List.range 2 = [0, 1] from rfl]) (by norm_num [risePoints, traceDiff, show List.range 2 = [0, 1] from rfl])
      (by norm_num [risePoints, peakPoints, traceDiff, show List.range 2 = [0, 1] from rfl])⟩

/-- The loop invariant for C2: the accepted onsets are strictly increasing
and all of them are smaller than every rise candidate the cursor has not
passed yet. -/
def scanInv (pstart : List ℕ) (s : ScanSt) : Prop :=
  s.starts.Pairwise (· < ·) ∧
  ∀ a ∈ s.starts, ∀ k, s.i ≤ k → k < pstart.length → a < pstart.getD k 0

theorem apStep_inv (trace : List ℚ) (pstart rev : List ℕ)
    (sr stim0 stim1 peak_th width_th : ℚ) (s t : ScanSt)
    (hsort : pstart.Pairwise (· < ·))
    (hinv : scanInv pstart s)
    (h : apStep trace pstart rev sr stim0 stim1 peak_th width_th s = some t) :
    scanInv pstart t := by
  unfold apStep at h
  split at h
  · rename_i hcond
    obtain ⟨hi, hj, hwin⟩ := hcond
    split at h
    · cases h
      exact ⟨hinv.1, fun a ha k hk hklen =>
        hinv.2 a ha k (le_trans (Nat.le_succ _) hk) hklen⟩
    · split at h
      · rename_i hrp
        split at h
        · cases h
          constructor
          · rw [List.pairwise_append]
            refine ⟨hinv.1, List.pairwise_singleton _ _, ?_⟩
            intro a ha b hb
            rw [List.mem_singleton] at hb
            subst hb
            exact hinv.2 a ha s.i le_rfl hi
          · intro a ha k hk hklen
            rw [List.mem_append, List.mem_singleton] at ha
            rcases ha with ha | ha
            · exact hinv.2 a ha k (le_trans (skipRises_ge _ _ _) hk) hklen
            · subst ha
              have hskiplt : skipRises pstart (rev.getD s.j 0) s.i <
                  pstart.length := lt_of_le_of_lt hk hklen
              have hstop := skipRises_stop pstart (rev.getD s.j 0) s.i hskiplt
              rcases Nat.eq_or_lt_of_le hk with heq | hlt
              · rw [← heq]
                exact lt_of_lt_of_le hrp hstop
              · exact lt_trans (lt_of_lt_of_le hrp hstop)
                  (pairwise_getD_lt pstart hsort _ k hlt hklen)
        · cases h
          exact ⟨hinv.1, fun a ha k hk hklen =>
            hinv.2 a ha k (le_trans (Nat.le_succ _) hk) hklen⟩
      · cases h
        exact ⟨hinv.1, fun a ha k hk hklen => hinv.2 a ha k hk hklen⟩
  · cases h

theorem apLoop_pairwise (trace : List ℚ) (pstart rev : List ℕ)
    (sr stim0 stim1 peak_th width_th : ℚ)
    (hsort : pstart.Pairwise (· < ·)) :
    ∀ n s, (pstart.length - s.i) + (rev.length - s.j) ≤ n → scanInv pstart s →
      (apLoop trace pstart rev sr stim0 stim1 peak_th width_th s).Pairwise
        (· < ·) := by
  intro n
  induction n with
  | zero =>
    intro s hn hinv
    rw [apLoop]
    split
    · rename_i h
      exfalso
      obtain ⟨t, ht⟩ := Option.isSome_iff_exists.mp h
      have := apStep_measure trace pstart rev sr stim0 stim1 peak_th width_th s t ht
      omega
    · exact hinv.1
  | succ n ih =>
    intro s hn hinv
    rw [apLoop]
    split
    · rename_i h
      have ht := (Option.some_get h).symm
      have hmeas := apStep_measure trace pstart rev sr stim0 stim1 peak_th
        width_th s _ ht
      exact ih _ (by omega)
        (apStep_inv trace pstart rev sr stim0 stim1 peak_th width_th s _
          hsort hinv ht)
    · exact hinv.1

/-- C2: for every input trace, sampling rate, stimulation descriptor and
detection parameters, the list of spike onset indices returned by
`AP.spikeAnalysis` is strictly increasing. -/
theorem spikeStarts_strictly_increasing
    (trace : List ℚ) (sr stim0 stim1 slope_th peak_th width_th : ℚ) :
    (spikeStarts trace sr stim0 stim1 slope_th peak_th width_th).Pairwise
      (· < ·) := by
  unfold spikeStarts
  exact apLoop_pairwise trace (risePoints trace sr slope_th)
    (peakPoints trace sr) sr stim0 stim1 peak_th width_th
    (risePoints_pairwise trace sr slope_th) _ ⟨0, 0, []⟩ le_rfl
    ⟨List.Pairwise.nil, by intro a ha; exact absurd ha (List.not_mem_nil a)⟩

/-!
## AP.spikeAnalysis — mAHP computation  (ap.py lines 163-176)

For each detected onset `starts[s]` that is not the last one, the code sets

  if starts[s] + sr * mAHPb < starts[s + 1]:
      mAHP[s] = trace[starts[s]] - np.min(trace[int(mAHPb * sr):
          min(starts[s] + int(mAHPe * sr), starts[s + 1])])

Note the lower slice bound is the absolute index `int(mAHPb * sr)`, while
both the guard and the upper bound are relative to the onset
(`starts[s] + ...`).
-/

/-- The mAHP column computed by `AP.spikeAnalysis` (ap.py lines 163-176);
`none` models the `np.nan` placeholder that is never overwritten. -/
def mAHPvalues (trace : List ℚ) (sr : ℚ) (starts : List ℕ)
    (mAHPb mAHPe : ℚ) : List (Option ℚ) :=
  (List.range starts.length).map (fun (s : ℕ) =>
    if s < starts.length - 1 ∧
        ((starts.getD s 0 : ℚ) + sr * mAHPb < (starts.getD (s + 1) 0 : ℚ)) then
      some (trace.getD (starts.getD s 0) 0 -
        listMin (pySlice trace (pyInt (mAHPb * sr))
          (min ((starts.getD s 0 : ℤ) + pyInt (mAHPe * sr))
            ((starts.getD (s + 1) 0 : ℕ) : ℤ))))
    else none)

/-- Modelled from the spec: "medium-after-hyperpolarization (mAHP: minimum
trace value in a configurable window after onset, relative to onset voltage,
only if the window fits before the next spike)" — the minimum is taken over
the window measured relative to the onset, i.e. its lower bound is
`starts[s] + int(mAHPb * sr)`. -/
def mAHPvaluesSpec (trace : List ℚ) (sr : ℚ) (starts : List ℕ)
    (mAHPb mAHPe : ℚ) : List (Option ℚ) :=
  (List.range starts.length).map (fun (s : ℕ) =>
    if s < starts.length - 1 ∧
        ((starts.getD s 0 : ℚ) + sr * mAHPb < (starts.getD (s + 1) 0 : ℚ)) then
      some (trace.getD (starts.getD s 0) 0 -
        listMin (pySlice trace (((starts.getD s 0 : ℕ) : ℤ) + pyInt (mAHPb * sr))
          (min ((starts.getD s 0 : ℤ) + pyInt (mAHPe * sr))
            ((starts.getD (s + 1) 0 : ℕ) : ℤ))))
    else none)

/-- C8 (code bug): at onset list `[10, 20]`, `sr = 1`, `mAHPb = 2`,
`mAHPe = 4` and a trace with a dip of `-100` at index 3 (before the first
onset), the code computes the first spike's mAHP over the absolute window
`trace[2:14]`, yielding `100`, while the window measured relative to the
onset (`trace[12:14]`, as the guard `starts[s] + sr*mAHPb < starts[s+1]`
and the upper bound `starts[s] + int(mAHPe*sr)` themselves assume) yields
`-5`.  The second spike, being last, gets `none` (NaN). -/
theorem mAHP_window_bug :
    mAHPvalues [(0 : ℚ), 0, 0, -100, 0, 0, 0, 0, 0, 0, 0, 0, 5, 6, 0]
        1 [10, 20] 2 4 = [some 100, none] ∧
    mAHPvaluesSpec [(0 : ℚ), 0, 0, -100, 0, 0, 0, 0, 0, 0, 0, 0, 5, 6, 0]
        1 [10, 20] 2 4 = [some (-5), none] ∧
    some (100 : ℚ) ≠ some (-5 : ℚ) := by
  refine ⟨?_, ?_, by norm_num⟩ <;>
    norm_num [mAHPvalues, mAHPvaluesSpec, pySlice, pySliceBound, pyInt,
      listMin, min_def, List.foldl_cons, List.foldl_nil,
      show List.range 2 = [0, 1] from rfl,
      show ((14 : ℤ).toNat) = 14 from rfl,
      show ((12 : ℤ).toNat) = 12 from rfl,
      show ((2 : ℤ).toNat) = 2 from rfl,
      show List.drop 2 [(0 : ℚ), 0, 0, -100, 0, 0, 0, 0, 0, 0, 0, 0, 5, 6, 0] =
        [0, -100, 0, 0, 0, 0, 0, 0, 0, 0, 5, 6, 0] from rfl,
      show List.drop 12 [(0 : ℚ), 0, 0, -100, 0, 0, 0, 0, 0, 0, 0, 0, 5, 6, 0] =
        [5, 6, 0] from rfl,
      show List.take 12 [(0 : ℚ), -100, 0, 0, 0, 0, 0, 0, 0, 0, 5, 6, 0] =
        [0, -100, 0, 0, 0, 0, 0, 0, 0, 0, 5, 6] from rfl,
      show List.take 2 [(5 : ℚ), 6, 0] = [5, 6] from rfl]

/-!
## SignalProc.decayFit  (process.py lines 71-128)

`scipy.optimize.curve_fit` is abstracted as an oracle `cf` receiving the
scaled fit segment and the initial parameter guess `p_0 = [x0, tau, xs]`
and returning the fitted `(fit_x0, tau, fit_xs)` or an exception.  The only
exception `decayFit` handles itself is `TypeError`, which it logs and
re-raises, so every oracle exception propagates unchanged.
-/

/-- The IEEE-754 double value of `np.e` (the float `2.718281828459045...`),
i.e. the exact rational `6121026514868073 / 2^51` that the float denotes. -/
def npE : ℚ := 6121026514868073 / 2251799813685248

/-- `fit_x = np.array(x[ft1:ft2]) * scale` (process.py line 103). -/
def decayFitSeg (x : List ℚ) (scale : ℚ) (ft1 ft2 : ℤ) : List ℚ :=
  (pySlice x ft1 ft2).map (· * scale)

/-- The condition of `np.argwhere(sign * (fit_x - x2) < sign * (g_x0 - x2)
/ np.e)` at index `k`, with `x2 = fit_x[-1]` and `g_x0 = fit_x[0]`
(process.py lines 105-108). -/
def decayGuessCond (fit_x : List ℚ) (sign : ℚ) (k : ℕ) : Prop :=
  sign * (fit_x.getD k 0 - fit_x.getLastD 0) <
    sign * (fit_x.getD 0 0 - fit_x.getLastD 0) / npE

instance (fit_x : List ℚ) (sign : ℚ) (k : ℕ) :
    Decidable (decayGuessCond fit_x sign k) := by
  unfold decayGuessCond
  infer_instance

/-- `g_tau = np.argwhere(...)[0][0]` (process.py lines 107-109): the first
index satisfying the crossing condition; `none` models the `IndexError`
raised when `argwhere` returns an empty array. -/
def decayGuessIdx (fit_x : List ℚ) (sign : ℚ) : Option ℕ :=
  (List.range fit_x.length).find? (fun k => decide (decayGuessCond fit_x sign k))

/-- `SignalProc.decayFit` (process.py lines 71-128). -/
def decayFit (x : List ℚ) (sr scale : ℚ) (ft1 ft2 : ℤ) (sign : ℚ)
    (p0 : Option (List ℚ))
    (cf : List ℚ → List ℚ → Except PyErr (ℚ × ℚ × ℚ)) :
    Except PyErr (ℚ × ℚ × ℚ) :=
  match p0 with
  | none =>
    if (decayFitSeg x scale ft1 ft2).length = 0 then
      .error .indexError
    else
      match decayGuessIdx (decayFitSeg x scale ft1 ft2) sign with
      | none => .error .indexError
      | some g_tau =>
        match cf (decayFitSeg x scale ft1 ft2)
            [(decayFitSeg x scale ft1 ft2).getD 0 0, (g_tau : ℚ),
             (decayFitSeg x scale ft1 ft2).getLastD 0] with
        | .ok (fit_x0, tau, fit_xs) =>
          .ok (fit_x0 / scale, fit_xs / scale, tau / sr)
        | .error e => .error e
  | some q =>
    match cf (decayFitSeg x scale ft1 ft2) q with
    | .ok (fit_x0, tau, fit_xs) =>
      .ok (fit_x0 / scale, fit_xs / scale, tau / sr)
    | .error e => .error e

theorem find?_range_first (n : ℕ) (p : ℕ → Bool) (k : ℕ)
    (h : (List.range n).find? p = some k) :
    p k = true ∧ ∀ j, j < k → p j = false := by
  rw [List.find?_eq_some] at h
  obtain ⟨hpk, as, bs, heq, has⟩ := h
  refine ⟨hpk, ?_⟩
  have hlen : as.length + (k :: bs).length = n := by
    have h1 := congrArg List.length heq
    simp only [List.length_range, List.length_append] at h1
    omega
  have hkeq : k = as.length := by
    have hlt : as.length < n := by
      simp only [List.length_cons] at hlen
      omega
    have h1 : (List.range n)[as.length]? = some as.length :=
      List.getElem?_range hlt
    rw [heq, List.getElem?_append_right le_rfl] at h1
    simp only [Nat.sub_self, List.getElem?_cons_zero] at h1
    exact Option.some_inj.mp h1
  intro j hj
  have hasr : as = List.range as.length := by
    have h1 := congrArg (List.take as.length) heq
    rw [List.take_left, List.take_range] at h1
    have hmin : min as.length n = as.length := by
      simp only [List.length_cons] at hlen
      omega
    rw [hmin] at h1
    exact h1.symm
  have hmem : j ∈ as := by
    rw [hasr, List.mem_range]
    omega
  have := has j hmem
  simpa using this

/-- C7: when called with no initial guess, `decayFit` derives the guess
deterministically — the xSteady guess is the last sample of the scaled fit
segment, the x0 guess its first sample, and the tau guess the first index
whose signed deviation from the xSteady guess falls below `1/e` of the
initial step (no earlier index satisfies the crossing condition); the
optimizer is invoked with exactly that guess, and on success the returned
tau is the fitted tau (in sample counts) divided by the sampling rate. -/
theorem decayFit_guess_spec (x : List ℚ) (sr scale : ℚ) (ft1 ft2 : ℤ)
    (sign : ℚ) (cf : List ℚ → List ℚ → Except PyErr (ℚ × ℚ × ℚ)) (g_tau : ℕ)
    (hg : decayGuessIdx (decayFitSeg x scale ft1 ft2) sign = some g_tau) :
    decayGuessCond (decayFitSeg x scale ft1 ft2) sign g_tau ∧
    (∀ j, j < g_tau → ¬ decayGuessCond (decayFitSeg x scale ft1 ft2) sign j) ∧
    (∀ e, cf (decayFitSeg x scale ft1 ft2)
        [(decayFitSeg x scale ft1 ft2).getD 0 0, (g_tau : ℚ),
         (decayFitSeg x scale ft1 ft2).getLastD 0] = .error e →
      decayFit x sr scale ft1 ft2 sign none cf = .error e) ∧
    (∀ fit_x0 tau fit_xs, cf (decayFitSeg x scale ft1 ft2)
        [(decayFitSeg x scale ft1 ft2).getD 0 0, (g_tau : ℚ),
         (decayFitSeg x scale ft1 ft2).getLastD 0] = .ok (fit_x0, tau, fit_xs) →
      decayFit x sr scale ft1 ft2 sign none cf =
        .ok (fit_x0 / scale, fit_xs / scale, tau / sr)) := by
  have hvals := find?_range_first _ _ _ hg
  have hlenpos : (decayFitSeg x scale ft1 ft2).length ≠ 0 := by
    have hmem := List.mem_of_find?_eq_some hg
    rw [List.mem_range] at hmem
    omega
  refine ⟨?_, ?_, ?_, ?_⟩
  · have := hvals.1
    simpa using this
  · intro j hj
    have := hvals.2 j hj
    simpa using this
  · intro e hcf
    simp only [decayFit, if_neg hlenpos, hg, hcf]
  · intro fit_x0 tau fit_xs hcf
    simp only [decayFit, if_neg hlenpos, hg, hcf]

theorem decayGuessIdx_sample :
    decayGuessIdx (decayFitSeg [(4 : ℚ), 1, 0, 0] 1 0 4) 1 = some 1 := by
  have hseg : decayFitSeg [(4 : ℚ), 1, 0, 0] 1 0 4 = [4, 1, 0, 0] := by
    norm_num [decayFitSeg, pySlice, pySliceBound,
      show (4 : ℤ).toNat = 4 from rfl,
      show (0 : ℤ).toNat = 0 from rfl,
      show List.take 4 [(4 : ℚ), 1, 0, 0] = [4, 1, 0, 0] from rfl]
  have h0 : decide (decayGuessCond [(4 : ℚ), 1, 0, 0] 1 0) = false := by
    simp only [decide_eq_false_iff_not]
    norm_num [decayGuessCond, npE,
      show ([(4 : ℚ), 1, 0, 0]).getLastD 0 = 0 from rfl]
  have h1 : decide (decayGuessCond [(4 : ℚ), 1, 0, 0] 1 1) = true := by
    simp only [decide_eq_true_eq]
    norm_num [decayGuessCond, npE,
      show ([(4 : ℚ), 1, 0, 0]).getLastD 0 = 0 from rfl]
  rw [decayGuessIdx, hseg,
    show List.range ([(4 : ℚ), 1, 0, 0].length) = [0, 1, 2, 3] from rfl]
  simp only [List.find?, h0, h1]

/-- Witness for C7 at a concrete input: fit segment `[4, 1, 0, 0]`
(`x = [4,1,0,0]`, `scale = 1`, fit range `[0, 4)`), `sign = 1`, `sr = 2`,
and an optimizer oracle that returns `popt = (8, 3, 2)`.  The derived tau
guess index is 1 (the first sample below `4/e`), and the returned tau is
`3 / 2`. -/
theorem decayFit_guess_spec_witness :
    (decayGuessIdx (decayFitSeg [(4 : ℚ), 1, 0, 0] 1 0 4) 1 = some 1) ∧
    (decayGuessCond (decayFitSeg [(4 : ℚ), 1, 0, 0] 1 0 4) 1 1 ∧
     (∀ j, j < 1 → ¬ decayGuessCond (decayFitSeg [(4 : ℚ), 1, 0, 0] 1 0 4) 1 j) ∧
     (∀ e, (fun (_ _ : List ℚ) =>
          (Except.ok ((8 : ℚ), (3 : ℚ), (2 : ℚ)) : Except PyErr (ℚ × ℚ × ℚ)))
        (decayFitSeg [(4 : ℚ), 1, 0, 0] 1 0 4)
        [(decayFitSeg [(4 : ℚ), 1, 0, 0] 1 0 4).getD 0 0, ((1 : ℕ) : ℚ),
         (decayFitSeg [(4 : ℚ), 1, 0, 0] 1 0 4).getLastD 0] = .error e →
      decayFit [(4 : ℚ), 1, 0, 0] 2 1 0 4 1 none
        (fun (_ _ : List ℚ) => .ok (8, 3, 2)) = .error e) ∧
     (∀ fit_x0 tau fit_xs, (fun (_ _ : List ℚ) =>
          (Except.ok ((8 : ℚ), (3 : ℚ), (2 : ℚ)) : Except PyErr (ℚ × ℚ × ℚ)))
        (decayFitSeg [(4 : ℚ), 1, 0, 0] 1 0 4)
        [(decayFitSeg [(4 : ℚ), 1, 0, 0] 1 0 4).getD 0 0, ((1 : ℕ) : ℚ),
         (decayFitSeg [(4 : ℚ), 1, 0, 0] 1 0 4).getLastD 0] =
          .ok (fit_x0, tau, fit_xs) →
      decayFit [(4 : ℚ), 1, 0, 0] 2 1 0 4 1 none
        (fun (_ _ : List ℚ) => .ok (8, 3, 2)) =
        .ok (fit_x0 / 1, fit_xs / 1, tau / 2))) :=
  ⟨decayGuessIdx_sample,
    decayFit_guess_spec [(4 : ℚ), 1, 0, 0] 2 1 0 4 1
      (fun (_ _ : List ℚ) => .ok (8, 3, 2)) 1 decayGuessIdx_sample⟩

/-!
## Mini.miniAnalysis — the candidate scan loop  (mini.py lines 106-245)

The pipeline up to the smoothed trace (`fx = self.smooth(x, sr, ...)`,
mini.py line 127) involves `scipy.signal.filtfilt`; the scan below is
therefore stated for an arbitrary smoothed trace `fx`, and
`scipy.optimize.curve_fit` (with the double-exponential model and the
residual computed from its result, mini.py lines 184-194) is the oracle
`fitter`, which receives the sample `x[lastRise:ptrInds[i+1]]` and the
initial guess `p0` and returns `(popt[0], res)` — the fitted decay
parameter in sample counts and the residual — or `none` for the
`RuntimeError`/`ValueError` branches that skip the candidate.
-/

/-- The mini-analysis parameter record (`self.miniParam`), after the
scaling applied by `Mini.setBasic` to `riseSlope` and `minAmp`. -/
structure MiniParam where
  sign : ℚ
  medianFilterWinSize : ℕ
  medianFilterThresh : ℚ
  lowBandWidth : ℚ
  riseSlope : ℚ
  riseTime : ℚ
  baseLineWin : ℚ
  minAmp : ℚ
  minTau : ℚ
  residual : ℚ
  onTauIni : ℚ
  offTauIni : ℚ
  stackWin : ℚ
  scale : ℚ
  deriving Repr, DecidableEq

/-- One accepted mini event: the columns of the `miniProps` table
(mini.py lines 214-217 and 227-228), in seconds / amperes. -/
structure MiniEvent where
  peak : ℚ
  rise : ℚ
  amp : ℚ
  decay : ℚ
  deriving Repr, DecidableEq

/-- `peaks = (0 < dfx[0:-1]) & (dfx[1:] < 0)` at index `k`
(mini.py line 129), with `dfx = np.diff(fx) * sr`. -/
def miniPeaksB (fx : List ℚ) (sr : ℚ) (k : ℕ) : Bool :=
  decide (0 < traceDiff fx sr k) && decide (traceDiff fx sr (k + 1) < 0)

/-- `troughs = (dfx[0:-1] < 0) & (0 < dfx[1:])` at index `k`
(mini.py line 130). -/
def miniTroughsB (fx : List ℚ) (sr : ℚ) (k : ℕ) : Bool :=
  decide (traceDiff fx sr k < 0) && decide (0 < traceDiff fx sr (k + 1))

/-- `rises = (dfx[0:-1] < riseSlope) & (riseSlope < dfx[1:])` at index `k`
(mini.py lines 132-133). -/
def miniRisesB (fx : List ℚ) (sr riseSlope : ℚ) (k : ℕ) : Bool :=
  decide (traceDiff fx sr k < riseSlope) && decide (riseSlope < traceDiff fx sr (k + 1))

/-- `ptrInds = np.concatenate((np.nonzero(peaks | rises | troughs)[0],
[int(win[1] * sr)]), axis=None)` (mini.py lines 140-141). -/
def miniPtrInds (fx : List ℚ) (sr riseSlope win1 : ℚ) : List ℕ :=
  ((List.range (fx.length - 2)).filter (fun k =>
    miniPeaksB fx sr k || miniRisesB fx sr riseSlope k || miniTroughsB fx sr k))
    ++ [(pyInt (win1 * sr)).toNat]

/-- The mutable state of the scan loop (mini.py lines 142-145), plus the
accepted events with the residual of their accepted fit attached as the
second component (the residual is computed at mini.py lines 192-194 and
tested at line 213 but not stored in the table). -/
structure MiniSt where
  lastRise : ℚ
  last2Rise : ℚ
  baseline : ℚ
  peakStack : List ℕ
  events : List (MiniEvent × ℚ)

/-- The initial scan state (mini.py lines 142-145):
`lastRise = -riseTime * sr`, `last2Rise = 0`, `baseline = 0`,
empty stack, no events. -/
def miniInitSt (p : MiniParam) (sr : ℚ) : MiniSt :=
  ⟨-(p.riseTime * sr), 0, 0, [], []⟩

/-- The decay-fit acceptance step (mini.py lines 184-223): on a fit result
`(popt[0], res)` the candidate is recorded iff `minTau < popt[0]/sr` and
`res < residual`; a fit exception (`none`) skips the candidate.  In every
case the peak stack has been resolved and is reset. -/
def miniFit (sr : ℚ) (p : MiniParam) (st : MiniSt) (pi : ℕ)
    (amp2 baseline : ℚ) (fitres : Option (ℚ × ℚ)) : MiniSt :=
  match fitres with
  | some (popt0, res) =>
    if p.minTau < popt0 / sr ∧ res < p.residual then
      { st with
        baseline := baseline
        peakStack := []
        events := st.events ++
          [(⟨(pi : ℚ) / sr, st.lastRise / sr, amp2 / p.scale,
             popt0 / sr⟩, res)] }
    else { st with baseline := baseline, peakStack := [] }
  | none => { st with baseline := baseline, peakStack := [] }

/-- One iteration of the scan loop body (mini.py lines 146-226) at loop
index `i`. -/
def miniStep (x fx : List ℚ) (sr : ℚ) (ptrInds : List ℕ) (p : MiniParam)
    (fitter : List ℚ → List ℚ → Option (ℚ × ℚ)) (st : MiniSt) (i : ℕ) :
    MiniSt :=
  let pi := ptrInds.getD i 0
  if miniPeaksB fx sr pi then
    if ((pi : ℚ) - st.lastRise < p.riseTime * sr) ∨ st.peakStack ≠ [] then
      if st.peakStack ≠ [] ∧
          ((ptrInds.getD (i + 1) 0 : ℚ) - (st.peakStack.headD 0 : ℚ) <
            p.stackWin * sr) then
        { st with peakStack := st.peakStack ++ [pi] }
      else
        let baseline :=
          if st.last2Rise < st.lastRise - (pyInt (p.baseLineWin * sr) : ℚ) then
            listMean (pySlice x (pyInt st.lastRise - pyInt (p.baseLineWin * sr))
              (pyInt st.lastRise))
          else st.baseline
        let amp := fx.getD pi 0 - baseline
        if p.minAmp < amp ∨ st.peakStack ≠ [] then
          if st.peakStack = [] ∧
              ((ptrInds.getD (i + 1) 0 : ℚ) - (pi : ℚ) < p.stackWin * sr) ∧
              i + 3 < ptrInds.length ∧
              ¬ miniRisesB fx sr p.riseSlope (ptrInds.getD (i + 2) 0) then
            { st with baseline := baseline, peakStack := [pi] }
          else
            let amp2 := if st.peakStack ≠ [] then
                listMax (st.peakStack.map (fun q => fx.getD q 0 - baseline))
              else amp
            let sample := pySlice x (pyInt st.lastRise)
              ((ptrInds.getD (i + 1) 0 : ℕ) : ℤ)
            let p0 := [p.offTauIni, p.onTauIni,
              fx.getD (pyInt st.lastRise).toNat 0 + amp2 - baseline,
              amp2, baseline]
            miniFit sr p st pi amp2 baseline (fitter sample p0)
        else { st with baseline := baseline }
    else st
  else if miniRisesB fx sr p.riseSlope pi then
    { st with last2Rise := st.lastRise, lastRise := (pi : ℚ) }
  else st

/-- The scan loop `for i in range(len(ptrInds) - 1)` (mini.py line 146)
run over the whole candidate list. -/
def miniScan (x fx : List ℚ) (sr : ℚ) (ptrInds : List ℕ) (p : MiniParam)
    (fitter : List ℚ → List ℚ → Option (ℚ × ℚ)) : MiniSt :=
  (List.range (ptrInds.length - 1)).foldl
    (miniStep x fx sr ptrInds p fitter) (miniInitSt p sr)

/-- The event rows of the `miniProps` table produced by the scan
(mini.py lines 227-228): peak, rise, amp and decay columns. -/
def miniScanEvents (x fx : List ℚ) (sr : ℚ) (ptrInds : List ℕ)
    (p : MiniParam) (fitter : List ℚ → List ℚ → Option (ℚ × ℚ)) :
    List MiniEvent :=
  (miniScan x fx sr ptrInds p fitter).events.map Prod.fst

theorem foldl_preserves {σ β : Type} (f : σ → β → σ) (P : σ → Prop)
    (hstep : ∀ s b, P s → P (f s b)) :
    ∀ (l : List β) (s : σ), P s → P (l.foldl f s) := by
  intro l
  induction l with
  | nil => intro s hs; simpa using hs
  | cons b bs ih =>
    intro s hs
    rw [List.foldl_cons]
    exact ih _ (hstep s b hs)

theorem miniFit_events_bound (sr : ℚ) (p : MiniParam) (st : MiniSt) (pi : ℕ)
    (amp2 baseline : ℚ) (fitres : Option (ℚ × ℚ))
    (hst : ∀ pr ∈ st.events, p.minTau < pr.1.decay ∧ pr.2 < p.residual) :
    ∀ pr ∈ (miniFit sr p st pi amp2 baseline fitres).events,
      p.minTau < pr.1.decay ∧ pr.2 < p.residual := by
  intro pr hpr
  cases fitres with
  | none => exact hst pr hpr
  | some r =>
    obtain ⟨popt0, res⟩ := r
    by_cases hacc : p.minTau < popt0 / sr ∧ res < p.residual
    · simp only [miniFit, if_pos hacc, List.mem_append,
        List.mem_singleton] at hpr
      rcases hpr with hold | hnew
      · exact hst pr hold
      · subst hnew
        exact ⟨hacc.1, hacc.2⟩
    · simp only [miniFit, if_neg hacc] at hpr
      exact hst pr hpr

theorem miniStep_events_bound (x fx : List ℚ) (sr : ℚ) (ptrInds : List ℕ)
    (p : MiniParam) (fitter : List ℚ → List ℚ → Option (ℚ × ℚ))
    (st : MiniSt) (i : ℕ)
    (hst : ∀ pr ∈ st.events, p.minTau < pr.1.decay ∧ pr.2 < p.residual) :
    ∀ pr ∈ (miniStep x fx sr ptrInds p fitter st i).events,
      p.minTau < pr.1.decay ∧ pr.2 < p.residual := by
  intro pr hpr
  simp only [miniStep] at hpr
  repeat' split at hpr
  all_goals
    first
      | exact hst pr hpr
      | exact miniFit_events_bound sr p st _ _ _ _ hst pr hpr

/-- C3: for every trace, smoothed trace, candidate list, parameter set and
optimizer behaviour, every event row emitted by the mini scan has a fitted
decay time constant strictly greater than `minTau`, and the residual of the
fit that produced it is strictly less than the `residual` threshold; no
candidate violating either bound is ever recorded. -/
theorem miniScan_events_bounds (x fx : List ℚ) (sr : ℚ) (ptrInds : List ℕ)
    (p : MiniParam) (fitter : List ℚ → List ℚ → Option (ℚ × ℚ))
    (ev : MiniEvent) (hev : ev ∈ miniScanEvents x fx sr ptrInds p fitter) :
    p.minTau < ev.decay ∧
    ∃ res, (ev, res) ∈ (miniScan x fx sr ptrInds p fitter).events ∧
      res < p.residual := by
  have hall : ∀ pr ∈ (miniScan x fx sr ptrInds p fitter).events,
      p.minTau < pr.1.decay ∧ pr.2 < p.residual := by
    unfold miniScan
    exact foldl_preserves (miniStep x fx sr ptrInds p fitter)
      (fun st => ∀ pr ∈ st.events, p.minTau < pr.1.decay ∧ pr.2 < p.residual)
      (fun s b hs => miniStep_events_bound x fx sr ptrInds p fitter s b hs)
      (List.range (ptrInds.length - 1)) (miniInitSt p sr)
      (fun pr hpr => absurd hpr (List.not_mem_nil pr))
  rcases List.mem_map.mp hev with ⟨⟨evv, res⟩, hmem, heq⟩
  cases heq
  exact ⟨(hall _ hmem).1, res, hmem, (hall _ hmem).2⟩

/-- A concrete mini-analysis parameter set used for the witness run:
riseSlope 1, riseTime 5, baseLineWin 1000, minAmp 1, minTau 2, residual 1,
onTauIni 20, offTauIni 30, stackWin 0, scale 1. -/
def sampleMiniParam : MiniParam :=
  ⟨-1, 5, 30, 300, 1, 5, 1000, 1, 2, 1, 20, 30, 0, 1⟩

theorem miniScanEvents_sample :
    miniScanEvents [(0 : ℚ), 0, 2, 4, 3, 3] [(0 : ℚ), 0, 2, 4, 3, 3] 1
      (miniPtrInds [(0 : ℚ), 0, 2, 4, 3, 3] 1 1 6) sampleMiniParam
      (fun (_ _ : List ℚ) => some ((10 : ℚ), (0 : ℚ))) =
      [⟨2, 0, 2, 10⟩] := by
  have hptr : miniPtrInds [(0 : ℚ), 0, 2, 4, 3, 3] 1 1 6 = [0, 2, 6] := by
    norm_num [miniPtrInds, miniPeaksB, miniRisesB, miniTroughsB, traceDiff,
      pyInt, show List.range 4 = [0, 1, 2, 3] from rfl,
      show ((6 : ℤ).toNat) = 6 from rfl, List.filter]
  rw [hptr]
  norm_num [miniScanEvents, miniScan, miniStep, miniFit, miniInitSt,
    miniPeaksB, miniRisesB, miniTroughsB, traceDiff, pyInt, pySlice,
    pySliceBound, listMean, listMax, sampleMiniParam,
    show List.range 2 = [0, 1] from rfl, List.foldl_cons, List.foldl_nil]

/-- Witness for C3 at a concrete run: trace/smoothed trace
`[0, 0, 2, 4, 3, 3]`, `sr = 1`, analysis window end 6, the sample
parameters, and an optimizer oracle returning `(popt[0], res) = (10, 0)`.
The scan emits exactly one event (peak 2, rise 0, amp 2, decay 10), whose
decay `10` is above `minTau = 2`, with fit residual `0` below
`residual = 1`. -/
theorem miniScan_events_bounds_witness :
    ((⟨2, 0, 2, 10⟩ : MiniEvent) ∈ miniScanEvents
      [(0 : ℚ), 0, 2, 4, 3, 3] [(0 : ℚ), 0, 2, 4, 3, 3] 1
      (miniPtrInds [(0 : ℚ), 0, 2, 4, 3, 3] 1 1 6) sampleMiniParam
      (fun (_ _ : List ℚ) => some ((10 : ℚ), (0 : ℚ)))) ∧
    (sampleMiniParam.minTau < (⟨2, 0, 2, 10⟩ : MiniEvent).decay ∧
     ∃ res, ((⟨2, 0, 2, 10⟩ : MiniEvent), res) ∈
        (miniScan [(0 : ℚ), 0, 2, 4, 3, 3] [(0 : ℚ), 0, 2, 4, 3, 3] 1
          (miniPtrInds [(0 : ℚ), 0, 2, 4, 3, 3] 1 1 6) sampleMiniParam
          (fun (_ _ : List ℚ) => some ((10 : ℚ), (0 : ℚ)))).events ∧
       res < sampleMiniParam.residual) :=
  ⟨by rw [miniScanEvents_sample]; exact List.mem_singleton_self _,
   miniScan_events_bounds [(0 : ℚ), 0, 2, 4, 3, 3] [(0 : ℚ), 0, 2, 4, 3, 3] 1
     (miniPtrInds [(0 : ℚ), 0, 2, 4, 3, 3] 1 1 6) sampleMiniParam
     (fun (_ _ : List ℚ) => some ((10 : ℚ), (0 : ℚ))) ⟨2, 0, 2, 10⟩
     (by rw [miniScanEvents_sample]; exact List.mem_singleton_self _)⟩

/-!
## Mini.miniAnalysis reaching the smoothing step
(mini.py lines 111-128; process.py line 39)

`SignalProc.smooth` is declared `def smooth(self, x, sr, band, ftype,
btype)` — besides `self`, five parameters, none with a default value —
while `Mini.miniAnalysis` invokes it as
`fx = self.smooth(x, sr, self.miniParam['lowBandWidth'])`, providing three
arguments.  Python raises `TypeError` when a call provides fewer positional
arguments than there are parameters without defaults.
-/

/-- Number of parameters of `SignalProc.smooth` besides `self`
(process.py line 39: `x, sr, band, ftype, btype`). -/
def smoothParamCount : ℕ := 5

/-- Number of those parameters that carry default values
(process.py line 39: none — the docstring calls `ftype`/`btype`
"optional", but the signature gives them no defaults). -/
def smoothDefaultCount : ℕ := 0

/-- Number of arguments besides `self` at the call site
`self.smooth(x, sr, self.miniParam['lowBandWidth'])` (mini.py line 127). -/
def miniSmoothArgCount : ℕ := 3

/-- Python call semantics: a call raises `TypeError` when it provides fewer
positional arguments than there are parameters without defaults. -/
def pyCallMissingArgs (provided params defaults : ℕ) : Prop :=
  provided < params - defaults

instance (provided params defaults : ℕ) :
    Decidable (pyCallMissingArgs provided params defaults) := by
  unfold pyCallMissingArgs
  infer_instance

/-- Execution model of `Mini.miniAnalysis` (mini.py lines 106-245):
optional window slice, polarity flip, thresholded median filter, scaling,
linear detrend (`np.polyfit`/`np.polyval`, abstracted as `detrendO`), then
the call `self.smooth(x, sr, band)`; if that call is well-formed the scan
loop runs on the smoothed trace (`smoothO`, abstracting
`scipy.signal.filtfilt`).  `.error .typeError` models the `TypeError` of a
call with missing required arguments. -/
def miniAnalysisRun (trace : List ℚ) (sr : ℚ) (win0 win1 : ℚ) (p : MiniParam)
    (detrendO smoothO : List ℚ → List ℚ)
    (fitter : List ℚ → List ℚ → Option (ℚ × ℚ)) :
    Except PyErr (List MiniEvent) :=
  let x0 := if win0 ≠ win1 then
      (pySlice trace (pyInt (sr * win0)) (pyInt (sr * win1))).map (· * p.sign)
    else trace.map (· * p.sign)
  let x1 := thmedfilt x0 p.medianFilterWinSize p.medianFilterThresh
  let x2 := x1.map (· * p.scale)
  let x3 := detrendO x2
  if pyCallMissingArgs miniSmoothArgCount smoothParamCount smoothDefaultCount then
    .error .typeError
  else
    let fx := smoothO x3
    .ok (miniScanEvents x3 fx sr (miniPtrInds fx sr p.riseSlope win1) p fitter)

/-- C10: for every trace, sampling rate, window, parameter set and
behaviour of the numerical oracles, `Mini.miniAnalysis` raises `TypeError`
at the low-pass smoothing step — the call site passes three arguments to
`smooth`, which requires five with no defaults — and consequently never
returns an event table. -/
theorem miniAnalysisRun_typeError (trace : List ℚ) (sr win0 win1 : ℚ)
    (p : MiniParam) (detrendO smoothO : List ℚ → List ℚ)
    (fitter : List ℚ → List ℚ → Option (ℚ × ℚ)) :
    miniAnalysisRun trace sr win0 win1 p detrendO smoothO fitter =
      .error .typeError ∧
    ∀ evs, miniAnalysisRun trace sr win0 win1 p detrendO smoothO fitter ≠
      .ok evs := by
  have h : miniAnalysisRun trace sr win0 win1 p detrendO smoothO fitter =
      .error .typeError := by
    unfold miniAnalysisRun
    rw [if_pos]
    unfold pyCallMissingArgs smoothParamCount smoothDefaultCount
      miniSmoothArgCount
    omega
  exact ⟨h, fun evs hok => by rw [h] at hok; cases hok⟩

/-!
## SignalProc.smooth — band configuration errors  (process.py lines 39-69)

`smooth` itself performs no validation: it normalizes the critical
frequencies (`band / sr * 2` for lowpass/highpass, `[b / sr * 2 for b in
band]` otherwise) and delegates the filter design to
`scipy.signal.iirfilter`.  The validation that rejects an inverted band
(the spec's `FilterConfigError`) lives in scipy, outside this repository,
and is modelled from the spec.
-/

/-- The band argument of `SignalProc.smooth`: a single critical frequency
for lowpass/highpass, a `(low, high)` pair for band filters. -/
inductive BandArg where
  | scalar (f : ℚ)
  | pair (lo hi : ℚ)
  deriving DecidableEq, Repr

/-- The normalized critical frequencies `Wn` that `smooth` passes to
`scipy.signal.iirfilter` (process.py lines 62-67). -/
def smoothWn (band : BandArg) (sr : ℚ) : List ℚ :=
  match band with
  | .scalar f => [f / sr * 2]
  | .pair lo hi => [lo / sr * 2, hi / sr * 2]

/-- Modelled from the spec: the `FilterConfigError` condition of the
filter-design routine — "Fails with `FilterConfigError` if `bandType` is
bandpass and `freq_high <= freq_low`".  The validation is performed inside
`scipy.signal.iirfilter`, which is not part of this repository's source. -/
def iirfilterConfigError (Wn : List ℚ) (btype : String) : Prop :=
  btype = "bandpass" ∧ ∃ lo hi, Wn = [lo, hi] ∧ hi ≤ lo

/-- Whether a `smooth` call fails with `FilterConfigError`
(process.py lines 39-69, with the spec-modelled validation above). -/
def smoothFilterConfigError (band : BandArg) (sr : ℚ) (btype : String) :
    Prop :=
  iirfilterConfigError (smoothWn band sr) btype

/-- C9: a `smooth` call with band type bandpass and `freq_high <= freq_low`
fails with `FilterConfigError`, and no band configuration outside this
invalid shape raises it. -/
theorem smooth_filterConfigError_iff (band : BandArg) (sr : ℚ)
    (btype : String) (hsr : 0 < sr) :
    smoothFilterConfigError band sr btype ↔
      (btype = "bandpass" ∧ ∃ lo hi, band = .pair lo hi ∧ hi ≤ lo) := by
  have key : ∀ a b : ℚ, a / sr * 2 ≤ b / sr * 2 ↔ a ≤ b := by
    intro a b
    rw [mul_le_mul_right (by norm_num : (0 : ℚ) < 2),
      div_le_div_iff_of_pos_right hsr]
  unfold smoothFilterConfigError iirfilterConfigError
  cases band with
  | scalar f =>
    simp only [smoothWn]
    constructor
    · rintro ⟨hb, lo2, hi2, heq, -⟩
      have := congrArg List.length heq
      simp at this
    · rintro ⟨hb, lo2, hi2, heq, -⟩
      cases heq
  | pair lo hi =>
    simp only [smoothWn]
    constructor
    · rintro ⟨hb, lo2, hi2, heq, hle⟩
      simp only [List.cons.injEq, and_true] at heq
      refine ⟨hb, lo, hi, rfl, ?_⟩
      rw [← key]
      rw [heq.1, heq.2]
      exact hle
    · rintro ⟨hb, lo2, hi2, heq, hle⟩
      cases heq
      exact ⟨hb, lo / sr * 2, hi / sr * 2, rfl, (key hi lo).mpr hle⟩

/-- Witness for C9 at a concrete input: `band = (5, 3)` (high 3 not above
low 5), `sr = 2`, band type bandpass. -/
theorem smooth_filterConfigError_iff_witness :
    (0 : ℚ) < 2 ∧
    (smoothFilterConfigError (.pair 5 3) 2 "bandpass" ↔
      ("bandpass" = "bandpass" ∧
        ∃ lo hi, (BandArg.pair 5 3 : BandArg) = .pair lo hi ∧ hi ≤ lo)) :=
  ⟨by norm_num,
    smooth_filterConfigError_iff (.pair 5 3) 2 "bandpass" (by norm_num)⟩

/-!
## The batch loops with cooperative stop
(ap.py `AP.batchSpikeAnalysis` lines 259-286;
mini.py `Mini.batchMiniAnalysis` lines 268-293)

Both batch loops have the same shape: iterate over the (cell, trial)
pairs, analyze each trace, append the result to an in-memory list, and
poll `self.stopRequested()` after each trial, returning 0 immediately when
the flag is set.  The `pd.concat` + `HDFStore.put` persistence step runs
only after the loop finishes all pairs; an interrupted run returns 0
without writing anything.  `analyze` abstracts the per-trace analysis and
`stop k` the value of the stop flag at the poll following the k-th
completed trial. -/

/-- Outcome of a batch run: the return status (1 finished normally, 0 user
interrupted), the contents written to the HDF store (`none` when the store
was never written), and the pairs whose traces were processed. -/
structure BatchResult (α : Type) where
  status : ℕ
  stored : Option (List α)
  processed : List (ℕ × ℕ)

/-- The batch loop body (ap.py lines 261-279 / mini.py lines 273-287),
followed by the persistence step (ap.py lines 280-286). -/
def batchLoop {α : Type} (analyze : ℕ × ℕ → α) (stop : ℕ → Bool) :
    List (ℕ × ℕ) → ℕ → List α → List (ℕ × ℕ) → BatchResult α
  | [], _, acc, done => ⟨1, some acc, done⟩
  | q :: rest, k, acc, done =>
    if stop (k + 1) then ⟨0, none, done ++ [q]⟩
    else batchLoop analyze stop rest (k + 1) (acc ++ [analyze q]) (done ++ [q])

/-- A batch analysis run (`AP.batchSpikeAnalysis` /
`Mini.batchMiniAnalysis`) over the (cell, trial) pairs of a protocol. -/
def batchAnalysis {α : Type} (pairs : List (ℕ × ℕ)) (analyze : ℕ × ℕ → α)
    (stop : ℕ → Bool) : BatchResult α :=
  batchLoop analyze stop pairs 0 [] []

/-- C5 counterexample: two trials, the stop flag set after trial 1
completes.  The run stops with status 0 having processed only trial 1, but
nothing is persisted (`stored = none`): the claim's "the results of all k
completed trials are retained (persisted)" is false — `return 0` at
ap.py line 279 / mini.py line 287 skips the `pd.concat`/`store.put` step. -/
theorem batchAnalysis_stop_discards :
    batchAnalysis [(1, 1), (1, 2)] (fun q => q.1 + q.2)
        (fun k => k == 1) = ⟨0, none, [(1, 1)]⟩ ∧
    (batchAnalysis [(1, 1), (1, 2)] (fun q => q.1 + q.2)
        (fun k => k == 1)).stored = none ∧
    (none : Option (List ℕ)) ≠ some [(fun (q : ℕ × ℕ) => q.1 + q.2) (1, 1)] := by
  refine ⟨rfl, rfl, ?_⟩
  intro h
  cases h

theorem batchLoop_stop {α : Type} (analyze : ℕ × ℕ → α) (stop : ℕ → Bool)
    (k : ℕ) (hstop : stop k = true) :
    ∀ (rest : List (ℕ × ℕ)) (k0 : ℕ) (acc : List α) (done : List (ℕ × ℕ)),
      k0 < k → k ≤ k0 + rest.length →
      (∀ m, k0 < m → m < k → stop m = false) →
      batchLoop analyze stop rest k0 acc done =
        ⟨0, none, done ++ rest.take (k - k0)⟩ := by
  intro rest
  induction rest with
  | nil =>
    intro k0 acc done hk0 hlen hfirst
    simp only [List.length_nil, Nat.add_zero] at hlen
    omega
  | cons q rs ih =>
    intro k0 acc done hk0 hlen hfirst
    rw [batchLoop]
    by_cases heq : k0 + 1 = k
    · rw [if_pos (heq ▸ hstop)]
      have : k - k0 = 1 := by omega
      rw [this]
      simp
    · have hlt : k0 + 1 < k := by omega
      rw [if_neg (by rw [hfirst (k0 + 1) (by omega) hlt]; exact Bool.false_ne_true)]
      rw [ih (k0 + 1) (acc ++ [analyze q]) (done ++ [q]) hlt
        (by simp only [List.length_cons] at hlen; omega)
        (fun m h1 h2 => hfirst m (by omega) h2)]
      have htake : (q :: rs).take (k - k0) = q :: rs.take (k - (k0 + 1)) := by
        have : k - k0 = (k - (k0 + 1)) + 1 := by omega
        rw [this, List.take_succ_cons]
      rw [htake]
      simp

/-- C5 (amended): if the cooperative stop flag is first set at the poll
after trial `k` completes (`1 ≤ k ≤ n`), the batch loop terminates before
processing trial `k+1` and reports the non-error "stopped" status 0
without raising; exactly the first `k` trials were processed, but their
results are discarded rather than persisted — nothing is written to the
store (persistence happens only after a complete run). -/
theorem batchAnalysis_stop_spec {α : Type} (pairs : List (ℕ × ℕ))
    (analyze : ℕ × ℕ → α) (stop : ℕ → Bool) (k : ℕ)
    (hk1 : 1 ≤ k) (hkn : k ≤ pairs.length)
    (hfirst : ∀ m, 1 ≤ m → m < k → stop m = false)
    (hstop : stop k = true) :
    batchAnalysis pairs analyze stop = ⟨0, none, pairs.take k⟩ := by
  unfold batchAnalysis
  have := batchLoop_stop analyze stop k hstop pairs 0 [] []
    (by omega) (by simpa using hkn) (fun m h1 h2 => hfirst m h1 h2)
  simpa using this

/-- Witness for C5 (amended) at a concrete input: two trials, stop first
set after trial 1. -/
theorem batchAnalysis_stop_spec_witness :
    (1 ≤ 1 ∧ 1 ≤ ([((1 : ℕ), (1 : ℕ)), (1, 2)]).length ∧
     (∀ m, 1 ≤ m → m < 1 → ((fun k => k == 1) : ℕ → Bool) m = false) ∧
     ((fun k => k == 1) : ℕ → Bool) 1 = true) ∧
    batchAnalysis [((1 : ℕ), (1 : ℕ)), (1, 2)] (fun q => q.1 + q.2)
      (fun k => k == 1) = ⟨0, none, [((1 : ℕ), (1 : ℕ)), (1, 2)].take 1⟩ :=
  ⟨⟨by decide, by decide, by intro m h1 h2; omega, by decide⟩,
    batchAnalysis_stop_spec [(1, 1), (1, 2)] (fun q => q.1 + q.2)
      (fun k => k == 1) 1 (by decide) (by decide)
      (by intro m h1 h2; omega) (by decide)⟩

/-!
## SealTest.stAnalysis — headless behaviour  (sealTest.py lines 80-206)

In headless mode (`verbose = 0`) with a deterministic optimizer the retry
loop runs at most one distinguishable iteration (the median-filter
threshold `mf` can only change through the interactive branch):

* fit ok with `tau >= minTau`: `break` with `trapped = True` → the
  accepted-fit property formulas (lines 190-198);
* fit ok with `tau < minTau`: the interactive branch is entered even at
  `verbose = 0` and blocks on `self.ipt` (modelled `.blocked`);
* `ValueError`: logged, loop repeats with unchanged state — an infinite
  loop for a deterministic optimizer (modelled `.hangs`);
* `TypeError`: caught, `trapped = False`, then **re-raised** (line 189);
* any other exception (notably the `RuntimeError` that
  `scipy.optimize.curve_fit` raises on non-convergence): uncaught.

The steady-state-only fallback (lines 199-204) is reachable only with
`comp = True`.
-/

/-- `np.sign` on a rational. -/
def qSign (q : ℚ) : ℚ :=
  if q < 0 then -1 else if q = 0 then 0 else 1

/-- The seal-test parameter record (`self.stParam`). -/
structure STParam where
  baseline_start : ℚ
  baseline_end : ℚ
  steady_state_start : ℚ
  steady_state_end : ℚ
  seal_test_start : ℚ
  fit_end : ℚ
  scaleV : ℚ
  scaleI : ℚ
  ampV : ℚ
  ampI : ℚ
  minTau : ℚ
  deriving Repr, DecidableEq

/-- Outcome of a headless `stAnalysis` call. -/
inductive STOutcome where
  | ok (Rin Rs Cm : ℚ)
  | raised (e : PyErr)
  | blocked
  | hangs
  deriving DecidableEq, Repr

/-- `SealTest.stAnalysis` (sealTest.py lines 80-206) in headless mode
(`verbose = 0`), with `scipy.optimize.curve_fit` abstracted by the oracle
`cf` as in `decayFit`.  `clampV` selects voltage clamp
(`clamp == 'v'`). -/
def stAnalysisHeadless (trace : List ℚ) (sr : ℚ) (p : STParam)
    (comp clampV : Bool)
    (cf : List ℚ → List ℚ → Except PyErr (ℚ × ℚ × ℚ)) : STOutcome :=
  let scale := if clampV then p.scaleV else p.scaleI
  let amp := if clampV then p.ampV else p.ampI
  let t_1 : ℚ := if clampV then
      (listArgmax ((pySlice trace (pyInt (p.seal_test_start * sr))
        (pyInt (p.steady_state_start * sr))).map (· * qSign amp)) : ℚ) / sr +
        p.seal_test_start
    else p.seal_test_start
  let steadyState := listMean (pySlice trace (pyInt (p.steady_state_start * sr))
    (pyInt (p.steady_state_end * sr))) / scale
  let baseline := listMean (pySlice trace (pyInt (p.baseline_start * sr))
    (pyInt (p.baseline_end * sr))) / scale
  if comp then
    if clampV then .ok (amp / (steadyState - baseline)) 0 0
    else .ok ((steadyState - baseline) / amp) 0 0
  else
    match decayFit trace sr scale (pyInt (t_1 * sr)) (pyInt (p.fit_end * sr))
        (qSign amp) none cf with
    | .ok (x0, xs, tau) =>
      if tau < p.minTau then .blocked
      else if clampV then
        let Rs := amp / (x0 - baseline)
        let Rin := amp / (xs - baseline) - Rs
        .ok Rin Rs (tau * (Rin + Rs) / Rin / Rs)
      else
        let Rs := (x0 - baseline) / amp
        let Rin := (xs - baseline) / amp - Rs
        .ok Rin Rs (tau / Rin)
    | .error .valueError => .hangs
    | .error e => .raised e

/-- The concrete seal-test parameters of the C4 failing input. -/
def sampleSTParam : STParam :=
  ⟨4, 6, 4, 6, 0, 4, 1, 1, -1, -1, 1⟩

theorem decayFitSeg_sampleST :
    decayFitSeg [(4 : ℚ), 1, 0, 0, 5, 5] 1 0 4 = [4, 1, 0, 0] := by
  norm_num [decayFitSeg, pySlice, pySliceBound,
    show ((4 : ℤ).toNat) = 4 from rfl,
    show ((0 : ℤ).toNat) = 0 from rfl,
    show List.take 4 [(4 : ℚ), 1, 0, 0, 5, 5] = [4, 1, 0, 0] from rfl]

theorem decayFit_sampleST_raises :
    decayFit [(4 : ℚ), 1, 0, 0, 5, 5] 1 1 0 4 (-1) none
      (fun (_ _ : List ℚ) =>
        (Except.error PyErr.runtimeError : Except PyErr (ℚ × ℚ × ℚ))) =
      .error .runtimeError := by
  have hguess : decayGuessIdx (decayFitSeg [(4 : ℚ), 1, 0, 0, 5, 5] 1 0 4)
      (-1) = some 0 := by
    rw [decayGuessIdx, decayFitSeg_sampleST,
      show List.range ([(4 : ℚ), 1, 0, 0].length) = [0, 1, 2, 3] from rfl]
    have h0 : decide (decayGuessCond [(4 : ℚ), 1, 0, 0] (-1) 0) = true := by
      simp only [decide_eq_true_eq]
      norm_num [decayGuessCond, npE,
        show ([(4 : ℚ), 1, 0, 0]).getLastD 0 = 0 from rfl]
    simp only [List.find?, h0]
  have hlen : ¬ (decayFitSeg [(4 : ℚ), 1, 0, 0, 5, 5] 1 0 4).length = 0 := by
    rw [decayFitSeg_sampleST]
    norm_num
  simp only [decayFit, if_neg hlen, hguess]

/-- C4 (code bug): in headless mode with `comp = False`, when the
exponential fit fails to converge (`scipy.optimize.curve_fit` raises
`RuntimeError`), `SealTest.stAnalysis` raises instead of returning the
steady-state-only estimate: `decayFit` catches only `TypeError` and
re-raises it (process.py lines 125-128), and `stAnalysis` catches
`ValueError` and `TypeError` — the latter with `trapped = False`
immediately followed by `raise` (sealTest.py lines 186-189) — so
`RuntimeError` is never caught and the steady-state-only fallback
(sealTest.py lines 199-204) is unreachable after a fit failure.  At this
concrete failing input the call raises `RuntimeError` and returns no
`(Rin, Rs, Cm)` row at all. -/
theorem stAnalysis_headless_raises :
    stAnalysisHeadless [(4 : ℚ), 1, 0, 0, 5, 5] 1 sampleSTParam false false
        (fun (_ _ : List ℚ) =>
          (Except.error PyErr.runtimeError : Except PyErr (ℚ × ℚ × ℚ))) =
      .raised .runtimeError ∧
    ∀ Rin Rs Cm, stAnalysisHeadless [(4 : ℚ), 1, 0, 0, 5, 5] 1 sampleSTParam
        false false
        (fun (_ _ : List ℚ) =>
          (Except.error PyErr.runtimeError : Except PyErr (ℚ × ℚ × ℚ))) ≠
      .ok Rin Rs Cm := by
  have h : stAnalysisHeadless [(4 : ℚ), 1, 0, 0, 5, 5] 1 sampleSTParam
      false false
      (fun (_ _ : List ℚ) =>
        (Except.error PyErr.runtimeError : Except PyErr (ℚ × ℚ × ℚ))) =
      .raised .runtimeError := by
    have harg1 : pyInt (sampleSTParam.seal_test_start * 1) = 0 := by
      norm_num [sampleSTParam, pyInt]
    have harg2 : pyInt (sampleSTParam.fit_end * 1) = 4 := by
      norm_num [sampleSTParam, pyInt]
    have harg3 : qSign sampleSTParam.ampI = -1 := by
      norm_num [sampleSTParam, qSign]
    simp only [stAnalysisHeadless, Bool.false_eq_true, if_false, sampleSTParam]
    simp only [show sampleSTParam.seal_test_start = 0 from rfl] at harg1
    simp only [show sampleSTParam.fit_end = 4 from rfl] at harg2
    simp only [show sampleSTParam.ampI = -1 from rfl] at harg3
    rw [harg1, harg2, harg3, decayFit_sampleST_raises]
  exact ⟨h, fun Rin Rs Cm hok => by rw [h] at hok; cases hok⟩
